import Mathlib

/-!
Verification of the event-filtering and formatting pipeline of
`tracing-layer-slack` (`src/layer.rs`, `SlackLayer::on_event`).

Conventions of the embedding:
* `serde_json::Value` is modelled structurally by `Json`; serialization of
  values to text is an external capability of the source and is modelled by
  the executable `Json.render`.
* The event visitor (`JsonStorage`, an external crate) yields the event's
  fields as an ordered association list `List (String × Json)`.
* Regex matching (the `regex` crate) is an external capability, modelled as
  an abstract predicate `String → Bool` carried by each filter.
* The round-trip `serde_json::from_slice::<HashMap<String, Value>>` followed
  by `to_string_pretty` is modelled by `dedupLast` (hash-map build with
  last-write-wins) followed by an explicit iteration order `ord`, because a
  `std` `HashMap`'s iteration order is an arbitrary permutation of its
  entries (it depends on the process-random hash state).  Theorems quantify
  over `ord` and assume only that it permutes its input.
-/

namespace TracingSlack

/-- Structural model of `serde_json::Value`: null, booleans, numbers,
strings, arrays and objects. -/
inductive Json where
  | null : Json
  | bool (b : Bool) : Json
  | num (n : Int) : Json
  | str (s : String) : Json
  | arr (xs : List Json) : Json
  | obj (fields : List (String × Json)) : Json
  deriving Repr

/-- JSON escaping for one character of a string value (external
serialization capability; the common escapes are modelled). -/
def Json.escapeChar (c : Char) : String :=
  if c = '"' then "\\\""
  else if c = '\\' then "\\\\"
  else if c = '\n' then "\\n"
  else if c = '\t' then "\\t"
  else if c = '\r' then "\\r"
  else String.singleton c

/-- Rendering of a JSON string literal, quotes included. -/
def Json.renderStr (s : String) : String :=
  "\"" ++ String.join (s.data.map Json.escapeChar) ++ "\""

/-- Rendering of a JSON value to text (the source delegates this to
`serde_json`, an external collaborator; modelled compactly). -/
def Json.render : Json → String
  | .null => "null"
  | .bool true => "true"
  | .bool false => "false"
  | .num n => toString n
  | .str s => Json.renderStr s
  | .arr xs =>
      "[" ++ String.intercalate "," (xs.attach.map (fun x => Json.render x.1)) ++ "]"
  | .obj kvs =>
      "\x7b" ++
        String.intercalate ","
          (kvs.attach.map (fun kv => Json.renderStr kv.1.1 ++ ":" ++ Json.render kv.1.2)) ++
      "\x7d"
termination_by j => sizeOf j
decreasing_by
  · have := List.sizeOf_lt_of_mem x.2
    simp only [Json.arr.sizeOf_spec]
    omega
  · have h1 := List.sizeOf_lt_of_mem kv.2
    have h2 : sizeOf kv.1.2 < sizeOf kv.1 := by
      obtain ⟨a, b⟩ := kv.1
      simp only [Prod.mk.sizeOf_spec]
      omega
    simp only [Json.obj.sizeOf_spec]
    omega

/-- Modelled from the spec: the polarity of a `Filter` from the crate's
`filters` module (not under `src/`).  `Additive` rejects a subject that
matches; `Subtractive` rejects a subject that does not match. -/
inductive FilterType where
  | additive : FilterType
  | subtractive : FilterType
  deriving Repr, DecidableEq

/-- Modelled from the spec: a `Filter` is a regex pattern (regex matching
abstracted as a predicate on strings) together with a polarity. -/
structure Filter where
  pattern : String → Bool
  ty : FilterType

/-- Whether a single filter accepts a subject string (spec §4.1):
additive accepts iff the subject does not match, subtractive accepts iff
the subject matches. -/
def Filter.accepts (f : Filter) (s : String) : Bool :=
  match f.ty with
  | .additive => ! f.pattern s
  | .subtractive => f.pattern s

/-- Modelled from the spec: the rejection error of the filter chain,
carrying no payload — a pure early-exit control signal. -/
inductive FilterError where
  | rejected : FilterError
  deriving Repr, DecidableEq

/-- Modelled from the spec: `EventFilters::process` evaluates the chain
left-to-right, short-circuiting on the first rejecting filter; all filters
must accept (logical AND). -/
def processFilters : List Filter → String → Except FilterError Unit
  | [], _ => .ok ()
  | f :: rest, s => if f.accepts s then processFilters rest s else .error .rejected

/-- Modelled from the spec: an absent optional filter chain is a no-op
accept-everything identity. -/
def processOptFilters : Option (List Filter) → String → Except FilterError Unit
  | none, _ => .ok ()
  | some fs, s => processFilters fs s

/-- Modelled from the spec: the flat field-exclusion regex set
(`Option<Vec<Regex>>`) rejects a field key iff ANY regex matches it
(purely subtractive-by-presence, no polarity); an absent set accepts
every key. -/
def processExclusion : Option (List (String → Bool)) → String → Except FilterError Unit
  | none, _ => .ok ()
  | some rs, k => if rs.any (fun r => r k) then .error .rejected else .ok ()

/-- `SlackConfig`: the layer's connection configuration. -/
structure SlackConfig where
  webhook_url : String
  channel_name : String
  username : String
  icon_emoji : Option String

/-- `SlackPayload::new(channel, username, text, webhook_url, icon_emoji)`. -/
structure SlackPayload where
  channel : String
  username : String
  text : String
  webhook_url : String
  icon_emoji : Option String

/-- The `SlackLayer` struct: target filters (required), optional message
filters, optional by-field-key filters, optional field-exclusion regex
set, and the Slack configuration. -/
structure SlackLayer where
  target_filters : List Filter
  message_filters : Option (List Filter)
  event_by_field_filters : Option (List Filter)
  field_exclusion_filters : Option (List (String → Bool))
  config : SlackConfig

/-- The data the tracing framework hands `on_event` for one event: its
metadata (target, level, optional source file and line) and the fields
recorded by the `JsonStorage` visitor, in the order the visitor yields
them. -/
structure EventData where
  target : String
  level : String
  file : Option String
  line : Option Nat
  fields : List (String × Json)

/-- The current span's name and the fields accumulated in its
`JsonStorage` extension (empty when no storage is attached). -/
structure SpanData where
  name : String
  fields : List (String × Json)

/-- `event_visitor.values().get(k)`: lookup of a field by key (the visitor
map has unique keys; the first match is taken). -/
def getField (fields : List (String × Json)) (k : String) : Option Json :=
  (fields.find? (fun kv => kv.1 = k)).map Prod.snd

/-- The `match v { Value::String(s) => Some(s), _ => None }` projection
applied through `Option::map ∘ flatten`. -/
def stringValue : Option Json → Option String
  | some (.str s) => some s
  | _ => none

/-- Lines 176–194 of `layer.rs`: the message is the string value of the
`"message"` field, else the string value of the `"error"` field, else the
literal `"No message"`. -/
def resolveMessage (fields : List (String × Json)) : String :=
  match stringValue (getField fields "message") with
  | some s => s
  | none =>
    match stringValue (getField fields "error") with
    | some s => s
    | none => "No message"

/-- `const KEYWORDS: [&str; 2] = ["message", "error"]` (line 170). -/
def KEYWORDS : List String := ["message", "error"]

/-- The two lazy `filter` adapters on the event field iterator
(lines 202–207): drop the `KEYWORDS` keys, then drop every key the
field-exclusion set rejects. -/
def retainedFields (L : SlackLayer) (fields : List (String × Json)) :
    List (String × Json) :=
  (fields.filter (fun kv => ! KEYWORDS.contains kv.1)).filter
    (fun kv =>
      match processExclusion L.field_exclusion_filters kv.1 with
      | .ok _ => true
      | .error _ => false)

/-- The body of the `for` loop over surviving event fields
(lines 208–209): each key is run through the by-field filter chain with
`?` (a rejection aborts the whole closure), then the entry is serialized
into the map in order. -/
def serializeLoop (L : SlackLayer) :
    List (String × Json) → Except FilterError (List (String × Json))
  | [] => .ok []
  | kv :: rest =>
    match processOptFilters L.event_by_field_filters kv.1 with
    | .error e => .error e
    | .ok _ => (serializeLoop L rest).map (fun es => kv :: es)

/-- One `HashMap::insert` during `serde_json` deserialization of the
metadata buffer: an existing key's value is overwritten, a new key is
added. -/
def insertLast (m : List (String × Json)) (kv : String × Json) :
    List (String × Json) :=
  if m.any (fun e => e.1 = kv.1) then
    m.map (fun e => if e.1 = kv.1 then (e.1, kv.2) else e)
  else m ++ [kv]

/-- `serde_json::from_slice::<HashMap<String, Value>>` applied to the map
the serializer wrote: entries are inserted in serialization order, so on a
duplicate key the last written value wins. -/
def dedupLast (l : List (String × Json)) : List (String × Json) :=
  l.foldl insertLast []

/-- The last value written for a key in the serialized entry sequence. -/
def lastWrite : List (String × Json) → String → Option Json
  | [], _ => none
  | kv :: t, k =>
    match lastWrite t k with
    | some v => some v
    | none => if kv.1 = k then some kv.2 else none

/-- First-match association lookup (the specification-side view of
`HashMap::get`). -/
def mapLookup (m : List (String × Json)) (k : String) : Option Json :=
  (m.find? (fun kv => kv.1 = k)).map Prod.snd

/-- The entries of the deserialized `HashMap` in the order
`to_string_pretty` iterates them: `ord` is the map's arbitrary iteration
order, applied to the deduplicated entries. -/
def metadataEntries (ord : List (String × Json) → List (String × Json))
    (written : List (String × Json)) : List (String × Json) :=
  ord (dedupLast written)

/-- `serde_json::to_string_pretty` of the deserialized map (external
serialization capability, modelled with the two-space indented layout;
values rendered by `Json.render`). -/
def renderMetadata (entries : List (String × Json)) : String :=
  if entries.isEmpty then "\x7b\x7d"
  else
    "\x7b\n" ++
      String.intercalate ",\n"
        (entries.map (fun kv => "  " ++ Json.renderStr kv.1 ++ ": " ++ kv.2.render)) ++
    "\n\x7d"

/-- The `format!(concat!(...))` template of lines 234–250. -/
def formatTemplate (level message spanName target file : String) (line : Nat)
    (metadata : String) : String :=
  "*Event [" ++ level ++ "]*: \"" ++ message ++ "\"\n" ++
  "*Span*: _" ++ spanName ++ "_\n" ++
  "*Target*: _" ++ target ++ "_\n" ++
  "*Source*: _" ++ file ++ "#L" ++ toString line ++ "_\n" ++
  "*Metadata*:\n```" ++ metadata ++ "```"

/-- Lines 222–227: the rendered span name, or the sentinel `"None"` when
there is no active span. -/
def spanNameOf : Option SpanData → String
  | some sp => sp.name
  | none => "None"

/-- Lines 211–219: the fields the current span contributes to the
metadata map (none when there is no span). -/
def spanFieldsOf : Option SpanData → List (String × Json)
  | some sp => sp.fields
  | none => []

/-- The `format` closure of `on_event` (lines 169–253): target filter,
message resolution and message filter, per-field exclusion and by-field
filtering with serialization, span fields appended, the hash-map
round-trip, and the final template.  `ord` is the deserialized map's
iteration order. -/
def formatEvent (L : SlackLayer) (ev : EventData) (span : Option SpanData)
    (ord : List (String × Json) → List (String × Json)) :
    Except FilterError String := do
  processFilters L.target_filters ev.target
  let message := resolveMessage ev.fields
  processOptFilters L.message_filters message
  let eventEntries ← serializeLoop L (retainedFields L ev.fields)
  let written := eventEntries ++ spanFieldsOf span
  let metadata := renderMetadata (metadataEntries ord written)
  pure (formatTemplate ev.level message (spanNameOf span) ev.target
    (ev.file.getD "Unknown") (ev.line.getD 0) metadata)

/-- `SlackPayload::new(channel_name, username, formatted, webhook_url,
icon_emoji)` built from the layer's configuration (lines 257–263). -/
def makePayload (cfg : SlackConfig) (text : String) : SlackPayload :=
  { channel := cfg.channel_name
    username := cfg.username
    text := text
    webhook_url := cfg.webhook_url
    icon_emoji := cfg.icon_emoji }

/-- The visible outcome of one `on_event` call: the event was filtered
out (or serialization failed) silently, or a payload was enqueued to the
worker, or the enqueue failed and the error was logged. -/
inductive OnEventOutcome where
  | filtered : OnEventOutcome
  | enqueued (p : SlackPayload) : OnEventOutcome
  | sendFailed (p : SlackPayload) : OnEventOutcome

/-- Lines 255–267 of `on_event`: run the `format` closure; on `Ok`, build
the payload and send it to the worker channel; a send error is only
logged.  `sendOk` models whether the unbounded channel still has a live
receiver. -/
def onEvent (L : SlackLayer) (ev : EventData) (span : Option SpanData)
    (ord : List (String × Json) → List (String × Json)) (sendOk : Bool) :
    OnEventOutcome :=
  match formatEvent L ev span ord with
  | .error _ => .filtered
  | .ok s =>
    let p := makePayload L.config s
    if sendOk then .enqueued p else .sendFailed p

/-- A successful pass of the by-field loop serializes exactly the surviving
fields, in order. -/
theorem serializeLoop_ok_eq (L : SlackLayer) :
    ∀ l ee, serializeLoop L l = Except.ok ee → ee = l := by
  intro l
  induction l with
  | nil =>
      intro ee h
      simp [serializeLoop] at h
      exact h
  | cons kv rest ih =>
      intro ee h
      simp only [serializeLoop] at h
      cases hp : processOptFilters L.event_by_field_filters kv.1 with
      | error e => rw [hp] at h; cases h
      | ok u =>
          rw [hp] at h
          cases hr : serializeLoop L rest with
          | error e => rw [hr] at h; simp [Except.map] at h
          | ok es =>
              rw [hr] at h
              have hcons : kv :: es = ee := by simpa [Except.map] using h
              rw [← hcons, ih es hr]

/-- If any field in the list is rejected by the by-field chain, the whole
loop aborts with a rejection. -/
theorem serializeLoop_error_of_mem (L : SlackLayer) (k : String) (v : Json) :
    ∀ l, (k, v) ∈ l →
      processOptFilters L.event_by_field_filters k = .error .rejected →
      serializeLoop L l = .error .rejected := by
  intro l
  induction l with
  | nil => intro h _; cases h
  | cons kv rest ih =>
      intro hmem hrej
      rcases List.mem_cons.mp hmem with heq | hmem'
      · subst heq
        simp [serializeLoop, hrej]
      · cases hp : processOptFilters L.event_by_field_filters kv.1 with
        | error e => cases e; simp [serializeLoop, hp]
        | ok u => simp [serializeLoop, hp, ih hmem' hrej, Except.map]

/-- `List.any` on the key predicate is key membership. -/
theorem any_key_iff (m : List (String × Json)) (k : String) :
    (m.any (fun e => e.1 = k)) = true ↔ k ∈ m.map Prod.fst := by
  simp [List.any_eq_true, List.mem_map]

/-- Overwriting the value at one key does not change the key list. -/
theorem keys_map_replace (m : List (String × Json)) (k0 : String) (v0 : Json) :
    (m.map (fun e => if e.1 = k0 then (e.1, v0) else e)).map Prod.fst =
      m.map Prod.fst := by
  rw [List.map_map]
  apply List.map_congr_left
  intro e _
  by_cases h : e.1 = k0 <;> simp [h]

/-- Key membership after a hash-map insert. -/
theorem mem_keys_insertLast (m : List (String × Json)) (kv : String × Json)
    (k : String) :
    k ∈ (insertLast m kv).map Prod.fst ↔ k ∈ m.map Prod.fst ∨ k = kv.1 := by
  by_cases h : m.any (fun e => e.1 = kv.1) = true
  · have hk : kv.1 ∈ m.map Prod.fst := (any_key_iff m kv.1).mp h
    rw [show insertLast m kv = m.map (fun e => if e.1 = kv.1 then (e.1, kv.2) else e)
        from by simp [insertLast, h]]
    rw [keys_map_replace]
    constructor
    · exact Or.inl
    · rintro (h1 | rfl)
      · exact h1
      · exact hk
  · rw [show insertLast m kv = m ++ [kv] from by simp [insertLast, h]]
    simp [List.map_append]

/-- A hash-map insert preserves distinctness of keys. -/
theorem keys_nodup_insertLast (m : List (String × Json)) (kv : String × Json)
    (h : (m.map Prod.fst).Nodup) :
    ((insertLast m kv).map Prod.fst).Nodup := by
  by_cases ha : m.any (fun e => e.1 = kv.1) = true
  · rw [show insertLast m kv = m.map (fun e => if e.1 = kv.1 then (e.1, kv.2) else e)
        from by simp [insertLast, ha]]
    rw [keys_map_replace]
    exact h
  · have hnot : kv.1 ∉ m.map Prod.fst := fun hc => ha ((any_key_iff m kv.1).mpr hc)
    rw [show insertLast m kv = m ++ [kv] from by simp [insertLast, ha]]
    rw [List.map_append, List.nodup_append]
    refine ⟨h, List.nodup_singleton _, ?_⟩
    intro x hx hx'
    rw [List.map_singleton, List.mem_singleton] at hx'
    exact hnot (hx' ▸ hx)

theorem mapLookup_nil (k : String) : mapLookup [] k = none := rfl

theorem mapLookup_cons (e : String × Json) (t : List (String × Json)) (k : String) :
    mapLookup (e :: t) k = if e.1 = k then some e.2 else mapLookup t k := by
  by_cases h : e.1 = k <;> simp [mapLookup, List.find?_cons, h]

/-- The event-field lookup in `resolveMessage` and the hash-map lookup view
are the same association-list lookup. -/
theorem getField_eq_mapLookup (fields : List (String × Json)) (k : String) :
    getField fields k = mapLookup fields k := rfl

theorem mapLookup_append (m1 m2 : List (String × Json)) (k : String) :
    mapLookup (m1 ++ m2) k =
      match mapLookup m1 k with
      | some v => some v
      | none => mapLookup m2 k := by
  induction m1 with
  | nil => simp [mapLookup_nil]
  | cons e t ih =>
      rw [List.cons_append, mapLookup_cons, mapLookup_cons]
      by_cases h : e.1 = k <;> simp [h, ih]

theorem mapLookup_eq_none_iff (m : List (String × Json)) (k : String) :
    mapLookup m k = none ↔ k ∉ m.map Prod.fst := by
  induction m with
  | nil => simp [mapLookup_nil]
  | cons e t ih =>
      rw [mapLookup_cons]
      by_cases h : e.1 = k
      · simp [h]
      · simp [h, ih, show ¬ k = e.1 from fun hc => h hc.symm]

/-- Lookup after overwriting the value stored at `k0`. -/
theorem mapLookup_map_replace (k0 : String) (v0 : Json) :
    ∀ (m : List (String × Json)) (k : String),
      mapLookup (m.map (fun e => if e.1 = k0 then (e.1, v0) else e)) k =
        if k0 = k then (mapLookup m k).map (fun _ => v0) else mapLookup m k := by
  intro m
  induction m with
  | nil => intro k; by_cases h : k0 = k <;> simp [mapLookup_nil, h]
  | cons e t ih =>
      intro k
      rw [List.map_cons, mapLookup_cons, mapLookup_cons]
      by_cases h1 : e.1 = k0
      · by_cases h2 : k0 = k
        · simp [h1, h1.trans h2, h2]
        · have h3 : ¬ e.1 = k := fun hc => h2 (h1.symm.trans hc)
          simp [h1, h2, h3, ih]
      · by_cases h3 : e.1 = k
        · have h2 : ¬ k0 = k := fun hc => h1 (h3.trans hc.symm)
          have h4 : ¬ k = k0 := fun hc => h2 hc.symm
          simp [h1, h2, h3, h4]
        · simp [h1, h3, ih]

/-- Lookup after one hash-map insert. -/
theorem mapLookup_insertLast (m : List (String × Json)) (kv : String × Json)
    (k : String) :
    mapLookup (insertLast m kv) k =
      if kv.1 = k then some kv.2 else mapLookup m k := by
  by_cases ha : m.any (fun e => e.1 = kv.1) = true
  · rw [show insertLast m kv = m.map (fun e => if e.1 = kv.1 then (e.1, kv.2) else e)
        from by simp [insertLast, ha]]
    rw [mapLookup_map_replace]
    by_cases h : kv.1 = k
    · have hk : k ∈ m.map Prod.fst := h ▸ (any_key_iff m kv.1).mp ha
      rw [if_pos h, if_pos h]
      cases hmk : mapLookup m k with
      | none => exact absurd ((mapLookup_eq_none_iff m k).mp hmk) (by simpa using hk)
      | some v => rfl
    · rw [if_neg h, if_neg h]
  · rw [show insertLast m kv = m ++ [kv] from by simp [insertLast, ha]]
    rw [mapLookup_append]
    by_cases h : kv.1 = k
    · have hnone : mapLookup m k = none := by
        rw [mapLookup_eq_none_iff]
        intro hc
        exact ha ((any_key_iff m kv.1).mpr (h ▸ hc))
      rw [hnone, if_pos h]
      simp [mapLookup_cons, mapLookup_nil, h]
    · cases hmk : mapLookup m k with
      | none => simp [mapLookup_cons, mapLookup_nil, h]
      | some v => simp [h]

/-- Lookup through the whole hash-map build: the last written value wins,
falling back to the initial map. -/
theorem mapLookup_foldl_insertLast (k : String) :
    ∀ (l m : List (String × Json)),
      mapLookup (l.foldl insertLast m) k =
        match lastWrite l k with
        | some v => some v
        | none => mapLookup m k := by
  intro l
  induction l with
  | nil => intro m; simp [lastWrite]
  | cons kv t ih =>
      intro m
      rw [List.foldl_cons, ih (insertLast m kv), mapLookup_insertLast]
      simp only [lastWrite]
      cases lastWrite t k with
      | some v => rfl
      | none => by_cases hk : kv.1 = k <;> simp [hk]

/-- Lookup in the deserialized metadata map is exactly the last value
written for that key. -/
theorem mapLookup_dedupLast (l : List (String × Json)) (k : String) :
    mapLookup (dedupLast l) k = lastWrite l k := by
  unfold dedupLast
  rw [mapLookup_foldl_insertLast]
  cases lastWrite l k <;> rfl

theorem mem_keys_foldl_insertLast (k : String) :
    ∀ (l m : List (String × Json)),
      k ∈ ((l.foldl insertLast m).map Prod.fst) ↔
        k ∈ m.map Prod.fst ∨ k ∈ l.map Prod.fst := by
  intro l
  induction l with
  | nil => intro m; simp
  | cons kv t ih =>
      intro m
      rw [List.foldl_cons, ih (insertLast m kv)]
      rw [mem_keys_insertLast]
      simp only [List.map_cons, List.mem_cons]
      tauto

/-- The deserialized metadata map holds exactly the keys that were
written. -/
theorem mem_keys_dedupLast (l : List (String × Json)) (k : String) :
    k ∈ (dedupLast l).map Prod.fst ↔ k ∈ l.map Prod.fst := by
  unfold dedupLast
  rw [mem_keys_foldl_insertLast]
  simp

theorem keys_nodup_foldl_insertLast :
    ∀ (l m : List (String × Json)), (m.map Prod.fst).Nodup →
      ((l.foldl insertLast m).map Prod.fst).Nodup := by
  intro l
  induction l with
  | nil => intro m h; exact h
  | cons kv t ih =>
      intro m h
      rw [List.foldl_cons]
      exact ih (insertLast m kv) (keys_nodup_insertLast m kv h)

/-- The deserialized metadata map has distinct keys. -/
theorem keys_nodup_dedupLast (l : List (String × Json)) :
    ((dedupLast l).map Prod.fst).Nodup :=
  keys_nodup_foldl_insertLast l [] (by simp)

theorem lastWrite_eq_none_iff (k : String) :
    ∀ l : List (String × Json), lastWrite l k = none ↔ k ∉ l.map Prod.fst := by
  intro l
  induction l with
  | nil => simp [lastWrite]
  | cons kv t ih =>
      simp only [lastWrite, List.map_cons, List.mem_cons]
      cases h : lastWrite t k with
      | some v =>
          have hk : k ∈ t.map Prod.fst := by
            by_contra hc
            rw [(ih).mpr hc] at h
            cases h
          simp [hk]
      | none =>
          have hk : k ∉ t.map Prod.fst := ih.mp h
          by_cases hkk : kv.1 = k
          · simp [show k = kv.1 from hkk.symm]
          · simp [hkk, hk, show ¬ k = kv.1 from fun hc => hkk hc.symm]

/-- In a map with distinct keys, membership of an entry is the same as the
lookup returning its value. -/
theorem mem_iff_mapLookup (m : List (String × Json))
    (h : (m.map Prod.fst).Nodup) (k : String) (v : Json) :
    (k, v) ∈ m ↔ mapLookup m k = some v := by
  induction m with
  | nil => simp [mapLookup_nil]
  | cons e t ih =>
      rw [List.map_cons, List.nodup_cons] at h
      rw [mapLookup_cons, List.mem_cons]
      by_cases he : e.1 = k
      · rw [if_pos he]
        constructor
        · rintro (heq | hmem)
          · rw [← heq]
          · exact absurd (by rw [he]; exact List.mem_map_of_mem Prod.fst hmem) h.1
        · intro hv
          have h2 : e.2 = v := by injection hv
          left
          rw [← he, ← h2]
      · rw [if_neg he, ← ih h.2]
        constructor
        · rintro (heq | hmem)
          · exact absurd (congrArg Prod.fst heq).symm he
          · exact hmem
        · exact Or.inr

/-- Entry membership in the rendered metadata map, for any admissible
hash-map iteration order. -/
theorem mem_metadataEntries (ord : List (String × Json) → List (String × Json))
    (w : List (String × Json))
    (hOrd : (ord (dedupLast w)).Perm (dedupLast w)) (k : String) (v : Json) :
    (k, v) ∈ metadataEntries ord w ↔ lastWrite w k = some v := by
  unfold metadataEntries
  rw [hOrd.mem_iff, mem_iff_mapLookup _ (keys_nodup_dedupLast w), mapLookup_dedupLast]

/-- Key membership in the rendered metadata map, for any admissible
hash-map iteration order. -/
theorem mem_keys_metadataEntries (ord : List (String × Json) → List (String × Json))
    (w : List (String × Json))
    (hOrd : (ord (dedupLast w)).Perm (dedupLast w)) (k : String) :
    k ∈ (metadataEntries ord w).map Prod.fst ↔ k ∈ w.map Prod.fst := by
  unfold metadataEntries
  rw [(hOrd.map Prod.fst).mem_iff, mem_keys_dedupLast]

/-- The rendered metadata map has distinct keys, for any admissible
hash-map iteration order. -/
theorem keys_nodup_metadataEntries (ord : List (String × Json) → List (String × Json))
    (w : List (String × Json))
    (hOrd : (ord (dedupLast w)).Perm (dedupLast w)) :
    ((metadataEntries ord w).map Prod.fst).Nodup :=
  ((hOrd.map Prod.fst).nodup_iff).mpr (keys_nodup_dedupLast w)

/-- Removing an entry whose key is not the looked-up one does not change
the lookup. -/
theorem getField_append_middle (pre post : List (String × Json)) (k k' : String)
    (v : Json) (h : ¬ k = k') :
    getField (pre ++ (k, v) :: post) k' = getField (pre ++ post) k' := by
  rw [getField_eq_mapLookup, getField_eq_mapLookup, mapLookup_append,
    mapLookup_append, mapLookup_cons]
  simp [h]

/-- The resolved message does not depend on a field whose key is neither
`"message"` nor `"error"`. -/
theorem resolveMessage_append_middle (pre post : List (String × Json)) (k : String)
    (v : Json) (hk : ¬ k ∈ KEYWORDS) :
    resolveMessage (pre ++ (k, v) :: post) = resolveMessage (pre ++ post) := by
  simp only [KEYWORDS, List.mem_cons, List.mem_singleton, not_or] at hk
  unfold resolveMessage
  rw [getField_append_middle pre post k "message" v hk.1,
    getField_append_middle pre post k "error" v (by simpa using hk.2)]

/-- A field whose key the exclusion set rejects is dropped by the lazy
filter adapters, leaving the surviving-field list unchanged otherwise. -/
theorem retainedFields_append (L : SlackLayer) (a b : List (String × Json)) :
    retainedFields L (a ++ b) = retainedFields L a ++ retainedFields L b := by
  simp [retainedFields, List.filter_append]

theorem retainedFields_cons_excluded (L : SlackLayer) (k : String) (v : Json)
    (post : List (String × Json))
    (hex : processExclusion L.field_exclusion_filters k = .error .rejected) :
    retainedFields L ((k, v) :: post) = retainedFields L post := by
  by_cases hkw : k ∈ KEYWORDS
  · simp [retainedFields, List.filter_cons, hkw]
  · simp [retainedFields, List.filter_cons, hkw, hex]

theorem retainedFields_append_middle (L : SlackLayer) (pre post : List (String × Json))
    (k : String) (v : Json)
    (hex : processExclusion L.field_exclusion_filters k = .error .rejected) :
    retainedFields L (pre ++ (k, v) :: post) = retainedFields L (pre ++ post) := by
  rw [retainedFields_append, retainedFields_cons_excluded L k v post hex,
    ← retainedFields_append]

/-- A rejected target aborts the `format` closure at its first step. -/
theorem formatEvent_target_reject (L : SlackLayer) (ev : EventData)
    (span : Option SpanData) (ord : List (String × Json) → List (String × Json))
    (h : processFilters L.target_filters ev.target = .error .rejected) :
    formatEvent L ev span ord = .error .rejected := by
  simp [formatEvent, h, Bind.bind, Except.bind]

/-- A rejected message aborts the `format` closure after the target
check. -/
theorem formatEvent_message_reject (L : SlackLayer) (ev : EventData)
    (span : Option SpanData) (ord : List (String × Json) → List (String × Json))
    (ht : processFilters L.target_filters ev.target = .ok ())
    (hm : processOptFilters L.message_filters (resolveMessage ev.fields) = .error .rejected) :
    formatEvent L ev span ord = .error .rejected := by
  simp [formatEvent, ht, hm, Bind.bind, Except.bind]

/-- A by-field rejection inside the serialization loop aborts the `format`
closure. -/
theorem formatEvent_fields_reject (L : SlackLayer) (ev : EventData)
    (span : Option SpanData) (ord : List (String × Json) → List (String × Json))
    (ht : processFilters L.target_filters ev.target = .ok ())
    (hm : processOptFilters L.message_filters (resolveMessage ev.fields) = .ok ())
    (hs : serializeLoop L (retainedFields L ev.fields) = .error .rejected) :
    formatEvent L ev span ord = .error .rejected := by
  simp [formatEvent, ht, hm, hs, Bind.bind, Except.bind]

/-- When every stage accepts, the `format` closure returns the filled-in
template. -/
theorem formatEvent_ok (L : SlackLayer) (ev : EventData) (span : Option SpanData)
    (ord : List (String × Json) → List (String × Json))
    (ee : List (String × Json))
    (ht : processFilters L.target_filters ev.target = .ok ())
    (hm : processOptFilters L.message_filters (resolveMessage ev.fields) = .ok ())
    (hs : serializeLoop L (retainedFields L ev.fields) = .ok ee) :
    formatEvent L ev span ord = .ok
      (formatTemplate ev.level (resolveMessage ev.fields) (spanNameOf span)
        ev.target (ev.file.getD "Unknown") (ev.line.getD 0)
        (renderMetadata (metadataEntries ord (ee ++ spanFieldsOf span)))) := by
  simp [formatEvent, ht, hm, hs, Bind.bind, Except.bind, pure, Except.pure]

/-- Inversion: a successful `format` run means every filter stage accepted
and the output is exactly the filled-in template over the surviving
fields. -/
theorem formatEvent_ok_inv (L : SlackLayer) (ev : EventData) (span : Option SpanData)
    (ord : List (String × Json) → List (String × Json)) (s : String)
    (h : formatEvent L ev span ord = .ok s) :
    processFilters L.target_filters ev.target = .ok () ∧
    processOptFilters L.message_filters (resolveMessage ev.fields) = .ok () ∧
    serializeLoop L (retainedFields L ev.fields) = .ok (retainedFields L ev.fields) ∧
    s = formatTemplate ev.level (resolveMessage ev.fields) (spanNameOf span)
          ev.target (ev.file.getD "Unknown") (ev.line.getD 0)
          (renderMetadata (metadataEntries ord
            (retainedFields L ev.fields ++ spanFieldsOf span))) := by
  cases ht : processFilters L.target_filters ev.target with
  | error e =>
      cases e
      rw [formatEvent_target_reject L ev span ord ht] at h
      cases h
  | ok u =>
      cases u
      cases hm : processOptFilters L.message_filters (resolveMessage ev.fields) with
      | error e =>
          cases e
          rw [formatEvent_message_reject L ev span ord ht hm] at h
          cases h
      | ok u =>
          cases u
          cases hs : serializeLoop L (retainedFields L ev.fields) with
          | error e =>
              cases e
              rw [formatEvent_fields_reject L ev span ord ht hm hs] at h
              cases h
          | ok ee =>
              have hee := serializeLoop_ok_eq L _ ee hs
              subst hee
              rw [formatEvent_ok L ev span ord _ ht hm hs] at h
              exact ⟨rfl, rfl, rfl, (Except.ok.inj h).symm⟩

/-- A `format` rejection leaves `on_event` with the silent `filtered`
outcome. -/
theorem onEvent_filtered_of_error (L : SlackLayer) (ev : EventData)
    (span : Option SpanData) (ord : List (String × Json) → List (String × Json))
    (sendOk : Bool) (h : formatEvent L ev span ord = .error .rejected) :
    onEvent L ev span ord sendOk = .filtered := by
  simp [onEvent, h]

/-- A successful `format` run enqueues the payload when the channel is
open and only logs when it is closed. -/
theorem onEvent_of_ok (L : SlackLayer) (ev : EventData) (span : Option SpanData)
    (ord : List (String × Json) → List (String × Json)) (sendOk : Bool) (s : String)
    (h : formatEvent L ev span ord = .ok s) :
    onEvent L ev span ord sendOk =
      if sendOk then .enqueued (makePayload L.config s)
      else .sendFailed (makePayload L.config s) := by
  simp [onEvent, h]

/-- A rejection of the `format` closure is equivalent to some stage
rejecting; in particular it does not depend on the span. -/
theorem formatEvent_error_iff (L : SlackLayer) (ev : EventData)
    (span : Option SpanData) (ord : List (String × Json) → List (String × Json)) :
    formatEvent L ev span ord = .error .rejected ↔
      ¬ (processFilters L.target_filters ev.target = .ok () ∧
         processOptFilters L.message_filters (resolveMessage ev.fields) = .ok () ∧
         serializeLoop L (retainedFields L ev.fields) =
           .ok (retainedFields L ev.fields)) := by
  constructor
  · intro h hand
    rw [formatEvent_ok L ev span ord _ hand.1 hand.2.1 hand.2.2] at h
    cases h
  · intro hand
    cases ht : processFilters L.target_filters ev.target with
    | error e => cases e; exact formatEvent_target_reject L ev span ord ht
    | ok u =>
        cases u
        cases hm : processOptFilters L.message_filters (resolveMessage ev.fields) with
        | error e => cases e; exact formatEvent_message_reject L ev span ord ht hm
        | ok u =>
            cases u
            cases hs : serializeLoop L (retainedFields L ev.fields) with
            | error e => cases e; exact formatEvent_fields_reject L ev span ord ht hm hs
            | ok ee =>
                have hee := serializeLoop_ok_eq L _ ee hs
                subst hee
                exact absurd ⟨ht, hm, hs⟩ hand

/-- A key's last write in the second part of an append dominates the last
write over the whole sequence. -/
theorem lastWrite_append_right (k : String) (v : Json) (b : List (String × Json))
    (hb : lastWrite b k = some v) :
    ∀ a, lastWrite (a ++ b) k = some v := by
  intro a
  induction a with
  | nil => simpa using hb
  | cons x t ih =>
      simp only [List.cons_append, lastWrite]
      rw [show t.append b = t ++ b from rfl, ih]

/-- A filter that accepts every subject: subtractive polarity with a
pattern matching everything. -/
def acceptAllFilter : Filter := ⟨fun _ => true, .subtractive⟩

/-- A filter that rejects every subject: additive polarity with a pattern
matching everything. -/
def rejectAllFilter : Filter := ⟨fun _ => true, .additive⟩

/-- A sample webhook configuration. -/
def sampleConfig : SlackConfig :=
  ⟨"https://hooks.example/T000/B000", "alerts", "tracing-bot", none⟩

/-- A layer that accepts every target and configures no optional
filters. -/
def openLayer : SlackLayer := ⟨[acceptAllFilter], none, none, none, sampleConfig⟩

/-- A layer whose required target chain rejects every target. -/
def rejectTargetLayer : SlackLayer :=
  ⟨[rejectAllFilter], none, none, none, sampleConfig⟩

/-- A layer whose message chain rejects every message. -/
def rejectMessageLayer : SlackLayer :=
  ⟨[acceptAllFilter], some [rejectAllFilter], none, none, sampleConfig⟩

/-- A layer excluding fields whose key is exactly `"secret"`. -/
def exclusionLayer : SlackLayer :=
  ⟨[acceptAllFilter], none, none, some [fun s => s == "secret"], sampleConfig⟩

/-- A layer whose by-field chain rejects every field key. -/
def byFieldLayer : SlackLayer :=
  ⟨[acceptAllFilter], none, some [rejectAllFilter], none, sampleConfig⟩

/-- A sample event with the single field `"b" = "1"`. -/
def sampleEvent : EventData :=
  ⟨"app::db", "INFO", none, none, [("b", Json.str "1")]⟩

/-- A sample span named `"request"` carrying the single field
`"a" = "2"`. -/
def sampleSpan : SpanData := ⟨"request", [("a", Json.str "2")]⟩

/-- An event carrying a field keyed `"secret"`. -/
def secretEvent : EventData :=
  ⟨"app::db", "INFO", none, none, [("secret", Json.str "x")]⟩

/-- An event with a non-string `"message"` field and a string `"error"`
field. -/
def oddEvent : EventData :=
  ⟨"app::db", "INFO", none, none,
    [("message", Json.num 3), ("error", Json.str "boom")]⟩

/-- C1: the message text used for rendering and message-filtering is the
string value of the event's `"message"` field when present with a string
value; otherwise the string value of the `"error"` field when present
with a string value; otherwise the fixed literal `"No message"`. -/
theorem message_resolution_fallback (fields : List (String × Json)) :
    (∀ s, getField fields "message" = some (Json.str s) →
      resolveMessage fields = s) ∧
    (stringValue (getField fields "message") = none →
      ∀ s, getField fields "error" = some (Json.str s) →
        resolveMessage fields = s) ∧
    (stringValue (getField fields "message") = none →
      stringValue (getField fields "error") = none →
      resolveMessage fields = "No message") := by
  refine ⟨?_, ?_, ?_⟩
  · intro s h
    unfold resolveMessage
    rw [h]
    rfl
  · intro hm s h
    unfold resolveMessage
    rw [hm, h]
    rfl
  · intro hm he
    unfold resolveMessage
    rw [hm, he]

theorem message_resolution_fallback_witness :
    resolveMessage [("error", Json.str "boom")] = "boom" ∧
    resolveMessage [] = "No message" :=
  ⟨(message_resolution_fallback [("error", Json.str "boom")]).2.1 rfl "boom" rfl,
   (message_resolution_fallback []).2.2 rfl rfl⟩

/-- C2 (amended): a fully-accepted event renders as the template — level,
resolved message, span name (sentinel `"None"`), target, source file and
line (sentinels `"Unknown"` and `0`), then the fenced block holding the
surviving event fields and span fields as a mapping with unique keys; the
mapping's rendered key order is the deserialized hash map's iteration
order, an arbitrary permutation of the deduplicated entries, not
necessarily event-fields-then-span-fields. -/
theorem rendered_output_structure (L : SlackLayer) (ev : EventData)
    (span : Option SpanData) (ord : List (String × Json) → List (String × Json))
    (s : String) (hOrd : ∀ l, (ord l).Perm l)
    (h : formatEvent L ev span ord = .ok s) :
    s = formatTemplate ev.level (resolveMessage ev.fields) (spanNameOf span)
          ev.target (ev.file.getD "Unknown") (ev.line.getD 0)
          (renderMetadata (metadataEntries ord
            (retainedFields L ev.fields ++ spanFieldsOf span))) ∧
    ((metadataEntries ord (retainedFields L ev.fields ++ spanFieldsOf span)).map
        Prod.fst).Nodup ∧
    (metadataEntries ord (retainedFields L ev.fields ++ spanFieldsOf span)).Perm
      (dedupLast (retainedFields L ev.fields ++ spanFieldsOf span)) := by
  obtain ⟨-, -, -, hset⟩ := formatEvent_ok_inv L ev span ord s h
  exact ⟨hset, keys_nodup_metadataEntries ord _ (hOrd _), hOrd _⟩

theorem rendered_output_structure_witness :
    ((metadataEntries id (retainedFields openLayer sampleEvent.fields ++
        spanFieldsOf (some sampleSpan))).map Prod.fst).Nodup :=
  (rendered_output_structure openLayer sampleEvent (some sampleSpan) id
    (formatTemplate "INFO" "No message" "request" "app::db" "Unknown" 0
      (renderMetadata [("b", Json.str "1"), ("a", Json.str "2")]))
    (fun _ => List.Perm.refl _) rfl).2.1

/-- C2 counterexample: with event field `"b"` and span field `"a"`, the
reversed iteration order is an admissible hash-map order under which the
rendered mapping lists the span field before the event field, so the
rendered order is not event-fields-then-span-fields. -/
theorem rendered_order_counterexample :
    formatEvent openLayer sampleEvent (some sampleSpan) List.reverse =
      .ok (formatTemplate "INFO" "No message" "request" "app::db" "Unknown" 0
        (renderMetadata [("a", Json.str "2"), ("b", Json.str "1")])) ∧
    (List.reverse (dedupLast [("b", Json.str "1"), ("a", Json.str "2")])).Perm
      (dedupLast [("b", Json.str "1"), ("a", Json.str "2")]) ∧
    metadataEntries List.reverse [("b", Json.str "1"), ("a", Json.str "2")] ≠
      [("b", Json.str "1"), ("a", Json.str "2")] := by
  refine ⟨rfl, List.reverse_perm _, ?_⟩
  intro h
  exact absurd (congrArg (List.map Prod.fst) h) (by decide)

/-- C3: the filters run in the order target, then message, then per-field;
a rejection at any stage yields the silent `filtered` outcome — no payload
is built or enqueued and nothing is surfaced — and a rejection at an
earlier stage makes the outcome independent of every later filter's
configuration. -/
theorem filter_order_and_silent_abort (L : SlackLayer) (ev : EventData)
    (span : Option SpanData) (ord : List (String × Json) → List (String × Json))
    (sendOk : Bool) :
    (processFilters L.target_filters ev.target = .error .rejected →
      ∀ mf ef ff, onEvent (SlackLayer.mk L.target_filters mf ef ff L.config)
        ev span ord sendOk = .filtered) ∧
    (processFilters L.target_filters ev.target = .ok () →
      processOptFilters L.message_filters (resolveMessage ev.fields) = .error .rejected →
      ∀ ef ff, onEvent (SlackLayer.mk L.target_filters L.message_filters ef ff L.config)
        ev span ord sendOk = .filtered) ∧
    (formatEvent L ev span ord = .error .rejected →
      onEvent L ev span ord sendOk = .filtered) := by
  refine ⟨?_, ?_, ?_⟩
  · intro ht mf ef ff
    exact onEvent_filtered_of_error _ _ _ _ _ (formatEvent_target_reject _ _ _ _ ht)
  · intro ht hm ef ff
    exact onEvent_filtered_of_error _ _ _ _ _ (formatEvent_message_reject _ _ _ _ ht hm)
  · intro h
    exact onEvent_filtered_of_error _ _ _ _ _ h

theorem filter_order_witness :
    onEvent (SlackLayer.mk rejectTargetLayer.target_filters none none none
      rejectTargetLayer.config) sampleEvent none id true = .filtered :=
  (filter_order_and_silent_abort rejectTargetLayer sampleEvent none id true).1
    rfl none none none

/-- C4: the resolved message (fallback-chosen values included) is run
through the message chain before any field serialization: when the chain
rejects it, the closure rejects for every field-filter configuration, so
no field work can be observed. -/
theorem message_chain_before_serialization (L : SlackLayer) (ev : EventData)
    (span : Option SpanData) (ord : List (String × Json) → List (String × Json))
    (ht : processFilters L.target_filters ev.target = .ok ())
    (hm : processOptFilters L.message_filters (resolveMessage ev.fields) = .error .rejected) :
    formatEvent L ev span ord = .error .rejected ∧
    ∀ ef ff, formatEvent (SlackLayer.mk L.target_filters L.message_filters ef ff
      L.config) ev span ord = .error .rejected :=
  ⟨formatEvent_message_reject L ev span ord ht hm,
   fun _ _ => formatEvent_message_reject _ ev span ord ht hm⟩

theorem message_chain_witness :
    formatEvent rejectMessageLayer sampleEvent none id = .error .rejected :=
  (message_chain_before_serialization rejectMessageLayer sampleEvent none id
    rfl rfl).1

/-- C5: the flat exclusion set is applied to each field key before the
by-field chain: an excluded key drops only that field (the result is as if
the field were absent, so the by-field chain never sees the key), while a
key that survives exclusion and is rejected by the by-field chain rejects
the whole event. -/
theorem exclusion_before_byfield (L : SlackLayer) (ev : EventData)
    (span : Option SpanData) (ord : List (String × Json) → List (String × Json))
    (k : String) (v : Json) (pre post : List (String × Json)) :
    (processExclusion L.field_exclusion_filters k = .error .rejected →
      ¬ k ∈ KEYWORDS →
      formatEvent L (EventData.mk ev.target ev.level ev.file ev.line
          (pre ++ (k, v) :: post)) span ord =
        formatEvent L (EventData.mk ev.target ev.level ev.file ev.line
          (pre ++ post)) span ord) ∧
    (processExclusion L.field_exclusion_filters k = .ok () →
      processOptFilters L.event_by_field_filters k = .error .rejected →
      (k, v) ∈ ev.fields → ¬ k ∈ KEYWORDS →
      processFilters L.target_filters ev.target = .ok () →
      processOptFilters L.message_filters (resolveMessage ev.fields) = .ok () →
      formatEvent L ev span ord = .error .rejected) := by
  constructor
  · intro hex hkw
    unfold formatEvent
    dsimp only
    rw [resolveMessage_append_middle pre post k v hkw,
      retainedFields_append_middle L pre post k v hex]
  · intro hex hbf hmem hkw ht hm
    have h1 : (k, v) ∈ retainedFields L ev.fields := by
      simp only [retainedFields]
      rw [List.mem_filter, List.mem_filter]
      refine ⟨⟨hmem, ?_⟩, ?_⟩
      · simpa using hkw
      · simp [hex]
    exact formatEvent_fields_reject L ev span ord ht hm
      (serializeLoop_error_of_mem L k v _ h1 hbf)

theorem exclusion_before_byfield_witness :
    (formatEvent exclusionLayer (EventData.mk secretEvent.target secretEvent.level
        secretEvent.file secretEvent.line ([] ++ ("secret", Json.str "x") :: [])) none id =
      formatEvent exclusionLayer (EventData.mk secretEvent.target secretEvent.level
        secretEvent.file secretEvent.line ([] ++ [])) none id) ∧
    formatEvent byFieldLayer sampleEvent none id = .error .rejected :=
  ⟨(exclusion_before_byfield exclusionLayer secretEvent none id "secret"
      (Json.str "x") [] []).1 rfl (by decide),
   (exclusion_before_byfield byFieldLayer sampleEvent none id "b"
      (Json.str "1") [] []).2 rfl rfl (List.mem_cons_self _ _) (by decide) rfl rfl⟩

/-- C6: an event field whose key matches an exclusion regex is never
serialized, for any value: it is absent from the surviving fields, and
absent from the rendered metadata whenever the enclosing span does not
itself carry that key (span fields bypass the event-level filters). -/
theorem excluded_key_never_rendered (L : SlackLayer) (ev : EventData)
    (span : Option SpanData) (ord : List (String × Json) → List (String × Json))
    (k : String) (hOrd : ∀ l, (ord l).Perm l)
    (hex : processExclusion L.field_exclusion_filters k = .error .rejected) :
    k ∉ (retainedFields L ev.fields).map Prod.fst ∧
    (k ∉ (spanFieldsOf span).map Prod.fst →
      k ∉ (metadataEntries ord
        (retainedFields L ev.fields ++ spanFieldsOf span)).map Prod.fst) := by
  have h1 : k ∉ (retainedFields L ev.fields).map Prod.fst := by
    intro hc
    rw [List.mem_map] at hc
    obtain ⟨e, he, hk⟩ := hc
    simp only [retainedFields] at he
    rw [List.mem_filter] at he
    have h2 := he.2
    rw [hk] at h2
    simp [hex] at h2
  refine ⟨h1, fun hsp hc => ?_⟩
  rw [mem_keys_metadataEntries ord _ (hOrd _), List.map_append,
    List.mem_append] at hc
  cases hc with
  | inl h => exact h1 h
  | inr h => exact hsp h

theorem excluded_key_witness :
    "secret" ∉ (metadataEntries id (retainedFields exclusionLayer
      secretEvent.fields ++ spanFieldsOf none)).map Prod.fst :=
  (excluded_key_never_rendered exclusionLayer secretEvent none id "secret"
    (fun _ => List.Perm.refl _) rfl).2 (by simp [spanFieldsOf])

/-- C7 (amended): the span's fields are serialized into the metadata map
after the event's surviving fields, so on a key collision the span's value
is the last write and wins, and they are not subjected to the exclusion
set or the by-field chain: acceptance is independent of the span, and
every span field key appears in the rendered metadata with its last
span-written value — no filter hypothesis needed.  The rendered key order,
however, is the deserialized map's arbitrary iteration order, not
necessarily event-fields-then-span-fields. -/
theorem span_fields_appended_unfiltered (L : SlackLayer) (ev : EventData)
    (name : String) (sf : List (String × Json))
    (ord : List (String × Json) → List (String × Json))
    (hOrd : ∀ l, (ord l).Perm l) :
    (∀ span' : Option SpanData,
      (formatEvent L ev (some (SpanData.mk name sf)) ord = .error .rejected ↔
       formatEvent L ev span' ord = .error .rejected)) ∧
    (∀ s, formatEvent L ev (some (SpanData.mk name sf)) ord = .ok s →
      s = formatTemplate ev.level (resolveMessage ev.fields) name ev.target
            (ev.file.getD "Unknown") (ev.line.getD 0)
            (renderMetadata (metadataEntries ord
              (retainedFields L ev.fields ++ sf)))) ∧
    (∀ k v, (k, v) ∈ sf →
      k ∈ (metadataEntries ord (retainedFields L ev.fields ++ sf)).map Prod.fst ∧
      (lastWrite sf k = some v →
        (k, v) ∈ metadataEntries ord (retainedFields L ev.fields ++ sf))) := by
  refine ⟨?_, ?_, ?_⟩
  · intro span'
    rw [formatEvent_error_iff, formatEvent_error_iff]
  · intro s h
    obtain ⟨-, -, -, hset⟩ := formatEvent_ok_inv L ev (some (SpanData.mk name sf)) ord s h
    exact hset
  · intro k v hmem
    constructor
    · rw [mem_keys_metadataEntries ord _ (hOrd _), List.map_append, List.mem_append]
      exact Or.inr (List.mem_map_of_mem Prod.fst hmem)
    · intro hlast
      rw [mem_metadataEntries ord _ (hOrd _)]
      exact lastWrite_append_right k v sf hlast _

theorem span_fields_witness :
    ("a" ∈ (metadataEntries id (retainedFields openLayer sampleEvent.fields ++
        sampleSpan.fields)).map Prod.fst) ∧
    ("a", Json.str "2") ∈ metadataEntries id
      (retainedFields openLayer sampleEvent.fields ++ sampleSpan.fields) := by
  have h := (span_fields_appended_unfiltered openLayer sampleEvent "request"
    sampleSpan.fields id (fun _ => List.Perm.refl _)).2.2 "a" (Json.str "2")
    (List.mem_cons_self _ _)
  exact ⟨h.1, h.2 rfl⟩

/-- C7 counterexample: with event field `"b"` and span field `"a"`, the
reversed iteration order is an admissible hash-map order under which the
span field appears BEFORE the event's surviving fields in the rendered
metadata — the rendered mapping is not the event's fields with the span's
fields appended after them. -/
theorem span_order_counterexample :
    metadataEntries List.reverse (retainedFields openLayer sampleEvent.fields ++
        spanFieldsOf (some sampleSpan)) =
      [("a", Json.str "2"), ("b", Json.str "1")] ∧
    (List.reverse (dedupLast (retainedFields openLayer sampleEvent.fields ++
        spanFieldsOf (some sampleSpan)))).Perm
      (dedupLast (retainedFields openLayer sampleEvent.fields ++
        spanFieldsOf (some sampleSpan))) ∧
    ¬ ∃ tail, metadataEntries List.reverse (retainedFields openLayer
        sampleEvent.fields ++ spanFieldsOf (some sampleSpan)) =
        retainedFields openLayer sampleEvent.fields ++ tail := by
  refine ⟨rfl, List.reverse_perm _, ?_⟩
  rintro ⟨tail, h⟩
  rw [show metadataEntries List.reverse (retainedFields openLayer
      sampleEvent.fields ++ spanFieldsOf (some sampleSpan)) =
      [("a", Json.str "2"), ("b", Json.str "1")] from rfl,
    show retainedFields openLayer sampleEvent.fields = [("b", Json.str "1")]
      from rfl] at h
  simp at h

/-- C8: the metadata round-trip through the generic key→value map yields a
mapping with unique keys holding exactly the written keys, where an entry
is present iff it is the last value serialized for its key (last write
wins, values exact), for every admissible iteration order. -/
theorem metadata_roundtrip_lastwrite (written : List (String × Json))
    (ord : List (String × Json) → List (String × Json))
    (hOrd : ∀ l, (ord l).Perm l) :
    ((metadataEntries ord written).map Prod.fst).Nodup ∧
    (∀ k, k ∈ (metadataEntries ord written).map Prod.fst ↔
      k ∈ written.map Prod.fst) ∧
    (∀ k v, (k, v) ∈ metadataEntries ord written ↔
      lastWrite written k = some v) :=
  ⟨keys_nodup_metadataEntries ord written (hOrd _),
   fun k => mem_keys_metadataEntries ord written (hOrd _) k,
   fun k v => mem_metadataEntries ord written (hOrd _) k v⟩

theorem metadata_roundtrip_witness :
    (("a", Json.str "2") ∈
        metadataEntries id [("a", Json.str "1"), ("a", Json.str "2")] ↔
      lastWrite [("a", Json.str "1"), ("a", Json.str "2")] "a" =
        some (Json.str "2")) ∧
    ((metadataEntries id [("a", Json.str "1"), ("a", Json.str "2")]).map
        Prod.fst).Nodup :=
  ⟨(metadata_roundtrip_lastwrite [("a", Json.str "1"), ("a", Json.str "2")] id
      (fun _ => List.Perm.refl _)).2.2 "a" (Json.str "2"),
   (metadata_roundtrip_lastwrite [("a", Json.str "1"), ("a", Json.str "2")] id
      (fun _ => List.Perm.refl _)).1⟩

/-- C9: `on_event` returns normally on every input: a filter rejection
gives the silent `filtered` outcome, and a formatted event yields exactly
the payload — enqueued when the channel is alive, carried to the
logged-only `sendFailed` outcome when the worker is gone, the producer
continuing unaffected; the three outcomes are exhaustive, and the metadata
round-trip behind the `unwrap`s is total in this model. -/
theorem onEvent_total_no_panic (L : SlackLayer) (ev : EventData)
    (span : Option SpanData) (ord : List (String × Json) → List (String × Json)) :
    (∀ sendOk, formatEvent L ev span ord = .error .rejected →
      onEvent L ev span ord sendOk = .filtered) ∧
    (∀ s, formatEvent L ev span ord = .ok s →
      onEvent L ev span ord true = .enqueued (makePayload L.config s) ∧
      onEvent L ev span ord false = .sendFailed (makePayload L.config s)) ∧
    (∀ sendOk, onEvent L ev span ord sendOk = .filtered ∨
      (∃ p, onEvent L ev span ord sendOk = .enqueued p) ∨
      (∃ p, onEvent L ev span ord sendOk = .sendFailed p)) := by
  refine ⟨?_, ?_, ?_⟩
  · intro sendOk h
    exact onEvent_filtered_of_error _ _ _ _ _ h
  · intro s h
    constructor
    · rw [onEvent_of_ok _ _ _ _ true s h]
      rfl
    · rw [onEvent_of_ok _ _ _ _ false s h]
      rfl
  · intro sendOk
    cases hf : formatEvent L ev span ord with
    | error e =>
        cases e
        exact Or.inl (onEvent_filtered_of_error _ _ _ _ _ hf)
    | ok s =>
        cases sendOk with
        | false =>
            exact Or.inr (Or.inr ⟨makePayload L.config s,
              by rw [onEvent_of_ok _ _ _ _ false s hf]; rfl⟩)
        | true =>
            exact Or.inr (Or.inl ⟨makePayload L.config s,
              by rw [onEvent_of_ok _ _ _ _ true s hf]; rfl⟩)

theorem onEvent_total_witness :
    onEvent rejectTargetLayer sampleEvent none id true = .filtered ∧
    (onEvent openLayer sampleEvent none id true =
        .enqueued (makePayload openLayer.config
          (formatTemplate "INFO" "No message" "None" "app::db" "Unknown" 0
            (renderMetadata [("b", Json.str "1")]))) ∧
      onEvent openLayer sampleEvent none id false =
        .sendFailed (makePayload openLayer.config
          (formatTemplate "INFO" "No message" "None" "app::db" "Unknown" 0
            (renderMetadata [("b", Json.str "1")])))) :=
  ⟨(onEvent_total_no_panic rejectTargetLayer sampleEvent none id).1 true rfl,
   (onEvent_total_no_panic openLayer sampleEvent none id).2.1
     (formatTemplate "INFO" "No message" "None" "app::db" "Unknown" 0
       (renderMetadata [("b", Json.str "1")])) rfl⟩

/-- C10: event fields keyed `"message"` or `"error"` are always dropped
from serialization regardless of value (hence absent from the rendered
metadata whenever the span does not itself carry that key), and a
`"message"` field whose value is not a string is not used as the message
text either — the resolution falls through to the `"error"` string or the
placeholder. -/
theorem keyword_fields_excluded (L : SlackLayer) (ev : EventData)
    (span : Option SpanData) (ord : List (String × Json) → List (String × Json))
    (k : String) (hOrd : ∀ l, (ord l).Perm l) (hk : k ∈ KEYWORDS) :
    k ∉ (retainedFields L ev.fields).map Prod.fst ∧
    (k ∉ (spanFieldsOf span).map Prod.fst →
      k ∉ (metadataEntries ord
        (retainedFields L ev.fields ++ spanFieldsOf span)).map Prod.fst) ∧
    (∀ v, getField ev.fields "message" = some v → stringValue (some v) = none →
      resolveMessage ev.fields =
        match stringValue (getField ev.fields "error") with
        | some s => s
        | none => "No message") := by
  have h1 : k ∉ (retainedFields L ev.fields).map Prod.fst := by
    intro hc
    rw [List.mem_map] at hc
    obtain ⟨e, he, hke⟩ := hc
    simp only [retainedFields] at he
    rw [List.mem_filter] at he
    have h2 := he.1
    rw [List.mem_filter] at h2
    have h3 := h2.2
    rw [hke] at h3
    simp [hk] at h3
  refine ⟨h1, fun hsp hc => ?_, fun v hv hnv => ?_⟩
  · rw [mem_keys_metadataEntries ord _ (hOrd _), List.map_append,
      List.mem_append] at hc
    cases hc with
    | inl h => exact h1 h
    | inr h => exact hsp h
  · unfold resolveMessage
    rw [hv, hnv]

theorem keyword_fields_witness :
    "error" ∉ (retainedFields openLayer oddEvent.fields).map Prod.fst ∧
    resolveMessage oddEvent.fields =
      match stringValue (getField oddEvent.fields "error") with
      | some s => s
      | none => "No message" :=
  ⟨(keyword_fields_excluded openLayer oddEvent none id "error"
      (fun _ => List.Perm.refl _) (by decide)).1,
   (keyword_fields_excluded openLayer oddEvent none id "error"
      (fun _ => List.Perm.refl _) (by decide)).2.2 (Json.num 3) rfl rfl⟩

end TracingSlack
